import Mathlib

/-!
Verification development for the quantitative value investing screener.

The screener pipeline (notebook `Quantitative_value_investing_strategy.ipynb`)
computes five valuation ratios per symbol, imputes missing values with column
means, ranks each metric cross-sectionally with `scipy.stats.percentileofscore`,
averages the percentiles into an RV score, sorts ascending, truncates to 50
rows, and allocates an equal-weight budget with `math.floor`.

Numeric cells are modelled as rationals (`ℚ`); a missing value (`None` from the
JSON payload, `NaN` in the dataframe) is `Option.none`.  Python exceptions are
modelled with an explicit error type threaded through `Except`.
-/

namespace QVIS

/-- Python exceptions relevant to the notebook's arithmetic and parsing. -/
inductive PyErr where
  | typeError
  | zeroDivisionError
  | valueError
deriving DecidableEq, Repr

/-- Python division `a / b` on raw JSON fields: a `None` operand raises
`TypeError`; a numeric zero divisor raises `ZeroDivisionError`. -/
def pydiv (a b : Option ℚ) : Except PyErr ℚ :=
  match a, b with
  | some x, some y => if y = 0 then .error .zeroDivisionError else .ok (x / y)
  | _, _ => .error .typeError

/-- `try: ev_to_ebitda = enterprise_value/ebitda except TypeError: np.NaN`:
only `TypeError` is caught and turned into the `NaN` marker; any other
exception propagates. -/
def ev_to_ebitda (enterprise_value ebitda : Option ℚ) : Except PyErr (Option ℚ) :=
  match pydiv enterprise_value ebitda with
  | .ok q => .ok (some q)
  | .error .typeError => .ok none
  | .error e => .error e

/-- `try: ev_to_gross_profit = enterprise_value/gross_profit except TypeError:
np.NaN`, identical shape to the EV/EBITDA computation. -/
def ev_to_gross_profit (enterprise_value gross_profit : Option ℚ) : Except PyErr (Option ℚ) :=
  match pydiv enterprise_value gross_profit with
  | .ok q => .ok (some q)
  | .error .typeError => .ok none
  | .error e => .error e

/-- One interactive entry for the portfolio-size prompt: either text that
`float` parses to a number, or text it rejects. -/
inductive Entry where
  | num (q : ℚ)
  | nonnum
deriving DecidableEq, Repr

/-- Python `float(s)` on a prompt entry: raises `ValueError` on non-numeric
text. -/
def pyFloat : Entry → Except PyErr ℚ
  | .num q => .ok q
  | .nonnum => .error .valueError

/-- `portfolio_input()`: reads `portfolio_size`, tries `float` on it, and on
`ValueError` prints a message and reads one replacement entry, which it does
NOT validate.  The result is the final value of the global `portfolio_size`. -/
def portfolio_input (first second : Entry) : Entry :=
  match pyFloat first with
  | .ok _ => first
  | .error _ => second

/-- One row of the `rv_dataframe` as seen by the selector and the allocator. -/
structure Row where
  ticker : String
  price : ℚ
  rvScore : ℚ
deriving DecidableEq, Repr

/-- `position_size = float(portfolio_size) / len(rv_dataframe.index)`. -/
def position_size (portfolio_size : ℚ) (n : ℕ) : ℚ := portfolio_size / n

/-- `math.floor(position_size / price)`, assuming the division succeeded. -/
def shareCount (portfolio_size : ℚ) (n : ℕ) (price : ℚ) : ℤ :=
  ⌊position_size portfolio_size n / price⌋

/-- `math.floor(position_size / rv_dataframe['Price'][row])` with Python
semantics: price `0` raises `ZeroDivisionError`; otherwise the floored
quotient is returned (negative when the price is negative). -/
def sharesToBuy (portfolio_size : ℚ) (n : ℕ) (price : ℚ) : Except PyErr ℤ :=
  if price = 0 then .error .zeroDivisionError
  else .ok (shareCount portfolio_size n price)

/-- The allocation loop: one `Number of Shares to Buy` per selected row. -/
def allocateShares (portfolio_size : ℚ) (rows : List Row) : List (Except PyErr ℤ) :=
  rows.map (fun r => sharesToBuy portfolio_size rows.length r.price)

/-- Total money spent by the allocation: `Σ shares(r) * price(r)`. -/
def allocatedValue (portfolio_size : ℚ) (rows : List Row) : ℚ :=
  (rows.map (fun r => (shareCount portfolio_size rows.length r.price : ℚ) * r.price)).sum

/-- `len(filter(lambda x: x < v, xs))`: how many column values lie strictly
below `v`. -/
def countLT (xs : List ℚ) (v : ℚ) : ℕ := (xs.filter (fun x => x < v)).length

/-- `len(filter(lambda x: x <= v, xs))`: how many column values lie at or
below `v`. -/
def countLE (xs : List ℚ) (v : ℚ) : ℕ := (xs.filter (fun x => x ≤ v)).length

/-- `scipy.stats.percentileofscore(xs, score)` with the default
`kind='rank'`: `(left + right + (1 if right > left else 0)) * 50 / n`, where
`left`/`right` count values strictly below / at-or-below the score; an empty
column yields `100`. -/
def percentileofscore (xs : List ℚ) (score : ℚ) : ℚ :=
  if xs.length = 0 then 100
  else
    ((countLT xs score : ℚ) + (countLE xs score : ℚ) +
      (if countLT xs score < countLE xs score then 1 else 0)) * 50 / xs.length

/-- `stats.percentileofscore(rv_dataframe[metric], rv_dataframe.loc[row,
metric]) / 100`, the value written into the percentile column. -/
def percentileRank (xs : List ℚ) (score : ℚ) : ℚ := percentileofscore xs score / 100

/-- The spec's own formula, for comparison with the code's `percentileRank`:
`percentile(r) = |{ s in universe : value(s) ≤ value(r) }| / |universe|`. -/
def specPercentileRank (xs : List ℚ) (v : ℚ) : ℚ := (countLE xs v : ℚ) / xs.length

/-- `statistics.mean` on a list of rationals. -/
def mean (l : List ℚ) : ℚ := l.sum / l.length

/-- The RV Score loop body: `mean(value_percentiles)` over the five
percentile cells of one row. -/
def rvScoreOfRow (peP pbP psP evEbitdaP evGpP : ℚ) : ℚ :=
  mean [peP, pbP, psP, evEbitdaP, evGpP]

/-- `rv_dataframe[column].mean()`: pandas skips `NaN` cells; the mean of an
all-`NaN` column is itself `NaN`. -/
def colMean (xs : List (Option ℚ)) : Option ℚ :=
  let defined := xs.filterMap id
  if defined.length = 0 then none
  else some (defined.sum / (defined.length : ℚ))

/-- `rv_dataframe[column].fillna(rv_dataframe[column].mean(), inplace=True)`:
replace every `NaN` cell by the column mean.  When the mean is itself `NaN`
(all cells missing) the fill is a no-op and the column is unchanged. -/
def fillna (xs : List (Option ℚ)) : List (Option ℚ) :=
  match colMean xs with
  | none => xs
  | some m => xs.map (fun c => some (c.getD m))

/-- The `rv_dataframe` columns, in notebook order.  Metric and percentile
columns hold optional rationals (`none` = `NaN`/`'N/A'` placeholder). -/
structure RVFrame where
  ticker : List String
  price : List ℚ
  numberOfShares : List String
  pe : List (Option ℚ)
  peP : List (Option ℚ)
  pb : List (Option ℚ)
  pbP : List (Option ℚ)
  ps : List (Option ℚ)
  psP : List (Option ℚ)
  evEbitda : List (Option ℚ)
  evEbitdaP : List (Option ℚ)
  evGp : List (Option ℚ)
  evGpP : List (Option ℚ)
  rvScoreCol : List (Option ℚ)
deriving DecidableEq, Repr

/-- The imputation loop: `for column in [five metric columns]:
rv_dataframe[column].fillna(mean, inplace=True)` — only the five metric
columns are touched. -/
def imputeMissing (df : RVFrame) : RVFrame :=
  { df with
    pe := fillna df.pe
    pb := fillna df.pb
    ps := fillna df.ps
    evEbitda := fillna df.evEbitda
    evGp := fillna df.evGp }

/-- The ordering key of `rv_dataframe.sort_values(by='RV Score')`. -/
def sortedByScore (l : List Row) : Prop :=
  l.Pairwise (fun a b => a.rvScore ≤ b.rvScore)

/-- `rv_dataframe.sort_values(by='RV Score', inplace=True)` with the default
`kind='quicksort'`: the result is some permutation of the input that is
ascending in `RV Score`; the relative order of equal keys is not specified by
the sorting kind used. -/
def IsSortValuesResult (inp outp : List Row) : Prop :=
  inp.Perm outp ∧ sortedByScore outp

/-- `sort_values` followed by `rv_dataframe[:50]`-style truncation to the
first `n` rows. -/
def IsSelectorResult (n : ℕ) (inp outp : List Row) : Prop :=
  ∃ s, IsSortValuesResult inp s ∧ outp = s.take n

/-! ### Concrete instances used in closed statements -/

/-- Two rows with exactly equal RV scores but distinct tickers. -/
def rowA : Row := ⟨"AAA", 30, 1⟩

/-- See `rowA`: same RV score, different ticker. -/
def rowB : Row := ⟨"BBB", 40, 1⟩

/-- Fifty selected rows, each priced at 100 dollars. -/
def portfolio50 : List Row := List.replicate 50 ⟨"EQW", 100, 0⟩

/-- A two-row universe with gaps in several metric columns but at least one
defined value in each of the five. -/
def sampleFrame : RVFrame :=
  ⟨["A", "B"], [10, 20], ["N/A", "N/A"],
   [some 5, none], [none, none],
   [some 1, none], [none, none],
   [none, some 3], [none, none],
   [some 7, some 8], [none, none],
   [some 2, none], [none, none],
   [none, none]⟩

/-- A two-row universe whose `EV/GP` column is entirely undefined (e.g. both
symbols report `grossProfit = None`), while every other metric is defined. -/
def allNaNColFrame : RVFrame :=
  ⟨["A", "B"], [10, 20], ["N/A", "N/A"],
   [some 5, some 6], [none, none],
   [some 1, some 2], [none, none],
   [some 3, some 4], [none, none],
   [some 7, some 8], [none, none],
   [none, none], [none, none],
   [none, none]⟩

/-- A one-row universe with every metric defined. -/
def frameEffectSample : RVFrame :=
  ⟨["A"], [10], ["N/A"],
   [some 5], [none],
   [some 1], [none],
   [some 3], [none],
   [some 7], [none],
   [some 2], [none],
   [none]⟩

/-! ### Helper lemmas about the counting functions -/

lemma countLE_le_length (xs : List ℚ) (v : ℚ) : countLE xs v ≤ xs.length :=
  List.length_filter_le _ _

lemma filterLT_length_le_filterLE (t : List ℚ) (v : ℚ) :
    (t.filter (fun x => decide (x < v))).length ≤
      (t.filter (fun x => decide (x ≤ v))).length := by
  apply List.Sublist.length_le
  apply List.monotone_filter_right
  intro x hx
  simp only [decide_eq_true_eq] at hx ⊢
  exact le_of_lt hx

lemma countLT_lt_countLE : ∀ (xs : List ℚ) (v : ℚ), v ∈ xs → countLT xs v < countLE xs v := by
  intro xs v
  induction xs with
  | nil => intro hv; cases hv
  | cons a t ih =>
    intro hv
    simp only [countLT, countLE, List.filter_cons] at ih ⊢
    rcases List.mem_cons.mp hv with h | h
    · subst h
      rw [if_neg (by simp), if_pos (by simp)]
      simp only [List.length_cons]
      exact Nat.lt_succ_of_le (filterLT_length_le_filterLE t v)
    · have ht := ih h
      by_cases h1 : a < v
      · rw [if_pos (by simp [h1]), if_pos (by simp [le_of_lt h1])]
        simpa using Nat.succ_lt_succ ht
      · by_cases h2 : a ≤ v
        · rw [if_neg (by simp [h1]), if_pos (by simp [h2])]
          simp only [List.length_cons]
          omega
        · rw [if_neg (by simp [h1]), if_neg (by simp [h2])]
          exact ht

lemma countLT_mono (xs : List ℚ) {v w : ℚ} (h : v ≤ w) :
    countLT xs v ≤ countLT xs w := by
  apply List.Sublist.length_le
  apply List.monotone_filter_right
  intro x hx
  simp only [decide_eq_true_eq] at hx ⊢
  exact lt_of_lt_of_le hx h

lemma countLE_mono (xs : List ℚ) {v w : ℚ} (h : v ≤ w) :
    countLE xs v ≤ countLE xs w := by
  apply List.Sublist.length_le
  apply List.monotone_filter_right
  intro x hx
  simp only [decide_eq_true_eq] at hx ⊢
  exact le_trans hx h

/-- The closed form of the code's percentile for a score drawn from the
column: `(countLT + countLE + 1) / (2 n)`. -/
lemma percentileRank_eq (xs : List ℚ) (v : ℚ) (hv : v ∈ xs) :
    percentileRank xs v = ((countLT xs v : ℚ) + (countLE xs v : ℚ) + 1) / (2 * xs.length) := by
  have hn : xs.length ≠ 0 :=
    Nat.pos_iff_ne_zero.mp (List.length_pos.mpr (List.ne_nil_of_mem hv))
  have hlt : countLT xs v < countLE xs v := countLT_lt_countLE xs v hv
  have hq : (xs.length : ℚ) ≠ 0 := Nat.cast_ne_zero.mpr hn
  rw [percentileRank, percentileofscore, if_neg hn, if_pos hlt]
  field_simp
  ring

/-! ### Helper lemmas about imputation -/

lemma fillna_all_isSome (xs : List (Option ℚ)) (h : ∃ c ∈ xs, c.isSome) :
    ∀ c ∈ fillna xs, c.isSome := by
  obtain ⟨c, hc, hcs⟩ := h
  obtain ⟨v, rfl⟩ := Option.isSome_iff_exists.mp hcs
  have hv : v ∈ xs.filterMap id := List.mem_filterMap.mpr ⟨some v, hc, rfl⟩
  have hlen : (xs.filterMap id).length ≠ 0 :=
    Nat.pos_iff_ne_zero.mp (List.length_pos.mpr (List.ne_nil_of_mem hv))
  unfold fillna colMean
  simp only [hlen, if_false, ite_false]
  intro c' hc'
  obtain ⟨d, _, rfl⟩ := List.mem_map.mp hc'
  rfl

lemma fillna_of_all_isSome (xs : List (Option ℚ)) (h : ∀ c ∈ xs, c.isSome) :
    fillna xs = xs := by
  unfold fillna
  cases hcm : colMean xs with
  | none => rfl
  | some m =>
    conv_rhs => rw [← List.map_id xs]
    apply List.map_congr_left
    intro a ha
    obtain ⟨v, rfl⟩ := Option.isSome_iff_exists.mp (h a ha)
    rfl

lemma fillna_of_all_isNone (xs : List (Option ℚ)) (h : ∀ c ∈ xs, c = none) :
    fillna xs = xs := by
  have hcm : colMean xs = none := by
    unfold colMean
    have hnil : xs.filterMap id = [] := by
      rw [List.filterMap_eq_nil_iff]
      intro a ha
      rw [h a ha]
      rfl
    simp [hnil]
  unfold fillna
  rw [hcm]

lemma fillna_idem (xs : List (Option ℚ)) : fillna (fillna xs) = fillna xs := by
  by_cases h : ∃ c ∈ xs, c.isSome
  · exact fillna_of_all_isSome _ (fillna_all_isSome xs h)
  · push_neg at h
    have hall : ∀ c ∈ xs, c = none := by
      intro c hc
      cases c with
      | none => rfl
      | some v =>
        have := h (some v) hc
        simp at this
    rw [fillna_of_all_isNone xs hall, fillna_of_all_isNone xs hall]

lemma fillna_preserves_defined (xs : List (Option ℚ)) (i : ℕ) (v : ℚ)
    (h : xs[i]? = some (some v)) : (fillna xs)[i]? = some (some v) := by
  unfold fillna
  cases colMean xs with
  | none => exact h
  | some m =>
    rw [List.getElem?_map, h]
    rfl

/-! ### Claim theorems -/

/-- C2, counterexample: with a defined enterprise value and a defined zero
denominator, the notebook's `try/except TypeError` does not protect the
division — it raises `ZeroDivisionError` instead of producing the undefined
marker, so the claimed totality fails. -/
theorem ev_ratio_zero_denominator_raises :
    ev_to_ebitda (some 1) (some 0) = .error .zeroDivisionError ∧
    ev_to_gross_profit (some 1) (some 0) = .error .zeroDivisionError :=
  ⟨rfl, rfl⟩

/-- C2, amended: EV/EBITDA and EV/GP yield the undefined marker, without
raising, whenever the enterprise value or the denominator is non-numeric
(`None`); when both operands are numeric and the denominator is non-zero the
exact quotient is returned (never infinity); but a numeric zero denominator
is NOT handled — only `TypeError` is caught. -/
theorem ev_ratio_total_on_missing (ev d : Option ℚ) :
    (ev = none ∨ d = none →
      ev_to_ebitda ev d = .ok none ∧ ev_to_gross_profit ev d = .ok none) ∧
    (∀ a b : ℚ, ev = some a → d = some b → b ≠ 0 →
      ev_to_ebitda ev d = .ok (some (a / b)) ∧
      ev_to_gross_profit ev d = .ok (some (a / b))) := by
  constructor
  · rintro (rfl | rfl)
    · cases d with
      | none => exact ⟨rfl, rfl⟩
      | some b => exact ⟨rfl, rfl⟩
    · cases ev with
      | none => exact ⟨rfl, rfl⟩
      | some a => exact ⟨rfl, rfl⟩
  · rintro a b rfl rfl hb
    constructor <;> simp [ev_to_ebitda, ev_to_gross_profit, pydiv, hb]

/-- C2, witness: a missing denominator gives the undefined marker and a
defined non-zero denominator gives the exact ratio. -/
theorem ev_ratio_total_on_missing_witness :
    ev_to_ebitda (some 6) none = .ok none ∧
    ev_to_ebitda (some 6) (some 3) = .ok (some 2) :=
  ⟨((ev_ratio_total_on_missing (some 6) none).1 (Or.inr rfl)).1,
   by
    have h := ((ev_ratio_total_on_missing (some 6) (some 3)).2 6 3 rfl rfl
      (by norm_num)).1
    norm_num at h
    exact h⟩

/-- C4, counterexample: for a selected row priced at `-100` dollars with
budget `10000` over `50` rows, the allocation loop returns `-2` shares — it
does not fail with any error, and the share count is negative. -/
theorem negative_price_negative_shares :
    sharesToBuy 10000 50 (-100) = .ok (-2) := by
  norm_num [sharesToBuy, shareCount, position_size]

/-- C4, amended: there is no `InvalidPriceError` in the code.  A zero price
makes the allocation raise `ZeroDivisionError` before producing a share
count; a negative price produces a genuine (negative) share count without
any failure. -/
theorem nonpositive_price_behavior (B : ℚ) (n : ℕ) (p : ℚ) :
    (p = 0 → sharesToBuy B n p = .error .zeroDivisionError) ∧
    (p < 0 → 0 < B → 0 < n → ∃ z : ℤ, sharesToBuy B n p = .ok z ∧ z < 0) := by
  constructor
  · intro h
    simp [sharesToBuy, h]
  · intro hp hB hn
    refine ⟨shareCount B n p, by simp [sharesToBuy, ne_of_lt hp], ?_⟩
    have hnq : (0 : ℚ) < n := by exact_mod_cast hn
    have hps : 0 < position_size B n := div_pos hB hnq
    have hneg : position_size B n / p < 0 := div_neg_of_pos_of_neg hps hp
    have hfl : ¬ (0 ≤ ⌊position_size B n / p⌋) := by
      rw [Int.floor_nonneg]
      exact not_le.mpr hneg
    unfold shareCount
    omega

/-- C4, witness: price `0` raises `ZeroDivisionError` and price `-100`
yields a negative share count, at budget `10000` over `50` rows. -/
theorem nonpositive_price_behavior_witness :
    sharesToBuy 10000 50 0 = .error .zeroDivisionError ∧
    ∃ z : ℤ, sharesToBuy 10000 50 (-100) = .ok z ∧ z < 0 :=
  ⟨(nonpositive_price_behavior 10000 50 0).1 rfl,
   (nonpositive_price_behavior 10000 50 (-100)).2 (by norm_num) (by norm_num)
     (by norm_num)⟩

/-- C8: on a universe whose `EV/GP` column has zero defined values, the
imputation pass leaves the column entirely undefined and signals nothing:
`fillna` with an all-`NaN` mean is the identity, so the `NaN` cells silently
survive into the percentile stage, contrary to the promised
`ImputationError`. -/
theorem all_nan_column_silently_kept :
    imputeMissing allNaNColFrame = allNaNColFrame ∧
    (imputeMissing allNaNColFrame).evGp = [none, none] := by
  constructor
  · unfold imputeMissing
    rw [fillna_of_all_isSome allNaNColFrame.pe (by intro c hc; fin_cases hc <;> rfl),
      fillna_of_all_isSome allNaNColFrame.pb (by intro c hc; fin_cases hc <;> rfl),
      fillna_of_all_isSome allNaNColFrame.ps (by intro c hc; fin_cases hc <;> rfl),
      fillna_of_all_isSome allNaNColFrame.evEbitda (by intro c hc; fin_cases hc <;> rfl),
      fillna_of_all_isNone allNaNColFrame.evGp (by intro c hc; fin_cases hc <;> rfl)]
  · unfold imputeMissing
    rw [fillna_of_all_isNone allNaNColFrame.evGp (by intro c hc; fin_cases hc <;> rfl)]
    rfl

/-- C9: when the user types two non-numeric entries in a row,
`portfolio_input` accepts the second one without validating it, so the
global `portfolio_size` handed to the allocation stage is not parseable and
the later `float(portfolio_size)` raises `ValueError`. -/
theorem portfolio_input_second_entry_unvalidated :
    portfolio_input .nonnum .nonnum = .nonnum ∧
    pyFloat (portfolio_input .nonnum .nonnum) = .error .valueError :=
  ⟨rfl, rfl⟩

/-- C1, counterexample: for the two-row universe `[5, 5]` the code's
percentile (scipy `kind='rank'`) is `3/4`, while the spec's counting formula
`|{s : value(s) ≤ value(r)}| / n` gives `1` — with ties the two disagree. -/
theorem percentile_tie_counterexample :
    percentileRank [5, 5] 5 = 3 / 4 ∧
    specPercentileRank [5, 5] 5 = 1 ∧
    percentileRank [5, 5] 5 ≠ specPercentileRank [5, 5] 5 := by
  refine ⟨?_, ?_, ?_⟩
  · norm_num [percentileRank, percentileofscore, countLT, countLE, List.filter]
  · norm_num [specPercentileRank, countLE, List.filter]
  · norm_num [percentileRank, specPercentileRank, percentileofscore, countLT,
      countLE, List.filter]

/-- C1, amended: for every universe value, the computed percentile equals the
mean-rank `(countLT + countLE + 1) / (2 n)` (scipy `kind='rank'`), which
agrees with the spec's `countLE / n` exactly when the row's value is
untied; every percentile lies in `(0, 1]`, equal values share the same
percentile (the rank is a function of the value alone), the rank is
monotonic non-decreasing in the value, and a minimal value attains the
minimum percentile. -/
theorem percentile_rank_properties (xs : List ℚ) (v : ℚ) (hv : v ∈ xs) :
    percentileRank xs v =
      ((countLT xs v : ℚ) + (countLE xs v : ℚ) + 1) / (2 * xs.length) ∧
    0 < percentileRank xs v ∧
    percentileRank xs v ≤ 1 ∧
    (∀ w ∈ xs, v ≤ w → percentileRank xs v ≤ percentileRank xs w) ∧
    ((∀ u ∈ xs, v ≤ u) → ∀ w ∈ xs, percentileRank xs v ≤ percentileRank xs w) ∧
    (countLE xs v = countLT xs v + 1 →
      percentileRank xs v = specPercentileRank xs v) := by
  have hne : xs ≠ [] := List.ne_nil_of_mem hv
  have hnpos : 0 < xs.length := List.length_pos.mpr hne
  have hlt := countLT_lt_countLE xs v hv
  have hle := countLE_le_length xs v
  have heq := percentileRank_eq xs v hv
  have hden : (0 : ℚ) < 2 * xs.length :=
    mul_pos two_pos (by exact_mod_cast hnpos)
  have hmono : ∀ w ∈ xs, v ≤ w → percentileRank xs v ≤ percentileRank xs w := by
    intro w hw hvw
    rw [heq, percentileRank_eq xs w hw]
    rw [div_le_div_iff_of_pos_right hden]
    have h1 := countLT_mono xs hvw
    have h2 := countLE_mono xs hvw
    have hn : countLT xs v + countLE xs v + 1 ≤ countLT xs w + countLE xs w + 1 := by
      omega
    exact_mod_cast hn
  refine ⟨heq, ?_, ?_, hmono, ?_, ?_⟩
  · rw [heq]
    apply div_pos ?_ hden
    positivity
  · rw [heq, div_le_one hden]
    have hn : countLT xs v + countLE xs v + 1 ≤ 2 * xs.length := by omega
    exact_mod_cast hn
  · intro hminimal w hw
    exact hmono w hw (hminimal w hw)
  · intro hu
    rw [heq, specPercentileRank]
    have hcast : ((countLT xs v : ℚ) + (countLE xs v : ℚ) + 1) =
        2 * (countLE xs v : ℚ) := by
      have hn : countLT xs v + countLE xs v + 1 = 2 * countLE xs v := by omega
      exact_mod_cast hn
    rw [hcast, mul_div_mul_left _ _ (by norm_num : (2 : ℚ) ≠ 0)]

/-- C1, witness: in the universe `[10, 20, 30]` the minimal value `10`
receives a percentile in `(0, 1]`. -/
theorem percentile_rank_properties_witness :
    (10 : ℚ) ∈ [(10 : ℚ), 20, 30] ∧
    0 < percentileRank [(10 : ℚ), 20, 30] 10 ∧
    percentileRank [(10 : ℚ), 20, 30] 10 ≤ 1 :=
  ⟨by decide,
   (percentile_rank_properties [10, 20, 30] 10 (by decide)).2.1,
   (percentile_rank_properties [10, 20, 30] 10 (by decide)).2.2.1⟩

/-- C6: the RV score of a row is exactly the unweighted arithmetic mean of
its five percentile cells, which is the same as giving each cell weight
`1/5`, and it lies in `[0, 1]` whenever each percentile does. -/
theorem rv_score_mean_bounds (a b c d e : ℚ)
    (ha : 0 ≤ a ∧ a ≤ 1) (hb : 0 ≤ b ∧ b ≤ 1) (hc : 0 ≤ c ∧ c ≤ 1)
    (hd : 0 ≤ d ∧ d ≤ 1) (he : 0 ≤ e ∧ e ≤ 1) :
    rvScoreOfRow a b c d e = (a + b + c + d + e) / 5 ∧
    rvScoreOfRow a b c d e =
      a * (1 / 5) + b * (1 / 5) + c * (1 / 5) + d * (1 / 5) + e * (1 / 5) ∧
    0 ≤ rvScoreOfRow a b c d e ∧ rvScoreOfRow a b c d e ≤ 1 := by
  have h1 : rvScoreOfRow a b c d e = (a + b + c + d + e) / 5 := by
    simp [rvScoreOfRow, mean]
    ring
  refine ⟨h1, by rw [h1]; ring, ?_, ?_⟩
  · rw [h1]
    apply div_nonneg ?_ (by norm_num)
    linarith [ha.1, hb.1, hc.1, hd.1, he.1]
  · rw [h1, div_le_one (by norm_num)]
    linarith [ha.2, hb.2, hc.2, hd.2, he.2]

/-- C6, witness: five percentiles of `1/2` give an RV score of `1/2`,
inside `[0, 1]`. -/
theorem rv_score_mean_bounds_witness :
    rvScoreOfRow (1/2) (1/2) (1/2) (1/2) (1/2) = (1/2 + 1/2 + 1/2 + 1/2 + 1/2) / 5 ∧
    0 ≤ rvScoreOfRow (1/2) (1/2) (1/2) (1/2) (1/2) ∧
    rvScoreOfRow (1/2) (1/2) (1/2) (1/2) (1/2) ≤ 1 :=
  ⟨(rv_score_mean_bounds (1/2) (1/2) (1/2) (1/2) (1/2) (by norm_num)
      (by norm_num) (by norm_num) (by norm_num) (by norm_num)).1,
   (rv_score_mean_bounds (1/2) (1/2) (1/2) (1/2) (1/2) (by norm_num)
      (by norm_num) (by norm_num) (by norm_num) (by norm_num)).2.2.1,
   (rv_score_mean_bounds (1/2) (1/2) (1/2) (1/2) (1/2) (by norm_num)
      (by norm_num) (by norm_num) (by norm_num) (by norm_num)).2.2.2⟩

/-- C3: for a positive budget and a non-empty selection of positively priced
rows, every row receives `floor((B/N) / price)` shares and the total money
spent never exceeds the budget. -/
theorem allocation_floor_under_budget (B : ℚ) (rows : List Row)
    (hB : 0 < B) (hne : rows ≠ []) (hp : ∀ r ∈ rows, 0 < r.price) :
    allocateShares B rows =
      rows.map (fun r => .ok (shareCount B rows.length r.price)) ∧
    allocatedValue B rows ≤ B := by
  have hn : (rows.length : ℚ) ≠ 0 := by
    have := List.length_pos.mpr hne
    exact_mod_cast Nat.pos_iff_ne_zero.mp this
  constructor
  · unfold allocateShares
    apply List.map_congr_left
    intro r hr
    have hpr : r.price ≠ 0 := ne_of_gt (hp r hr)
    simp [sharesToBuy, hpr]
  · unfold allocatedValue
    have hbound : ∀ r ∈ rows,
        (shareCount B rows.length r.price : ℚ) * r.price ≤ B / rows.length := by
      intro r hr
      have hpr := hp r hr
      have hfl : (shareCount B rows.length r.price : ℚ) ≤
          position_size B rows.length / r.price := Int.floor_le _
      calc (shareCount B rows.length r.price : ℚ) * r.price
          ≤ position_size B rows.length / r.price * r.price :=
            mul_le_mul_of_nonneg_right hfl (le_of_lt hpr)
        _ = position_size B rows.length := div_mul_cancel₀ _ (ne_of_gt hpr)
        _ = B / rows.length := rfl
    calc (rows.map fun r => (shareCount B rows.length r.price : ℚ) * r.price).sum
        ≤ (rows.map fun _ => B / rows.length).sum := List.sum_le_sum hbound
      _ = B := by
          rw [List.map_const', List.sum_replicate, nsmul_eq_mul, mul_comm,
            div_mul_cancel₀ _ hn]

/-- C3, witness: with budget `10000` and fifty rows priced at `100`, every
row gets exactly `2` shares and the allocation spends exactly `10000`. -/
theorem allocation_floor_under_budget_witness :
    (allocateShares 10000 portfolio50 =
      portfolio50.map (fun r => .ok (shareCount 10000 portfolio50.length r.price)) ∧
     allocatedValue 10000 portfolio50 ≤ 10000) ∧
    allocateShares 10000 portfolio50 = List.replicate 50 (Except.ok 2) ∧
    allocatedValue 10000 portfolio50 = 10000 :=
  ⟨allocation_floor_under_budget 10000 portfolio50 (by norm_num)
     (by simp [portfolio50]) (by simp [portfolio50]),
   by
    simp [allocateShares, portfolio50, sharesToBuy, shareCount, position_size]
    norm_num,
   by
    simp [allocatedValue, portfolio50, shareCount, position_size]
    norm_num⟩

/-- C5: if each of the five metric columns has at least one defined value,
one imputation pass leaves no undefined cell in those columns, and a second
pass is the identity on the whole frame. -/
theorem imputation_idempotent (df : RVFrame)
    (hpe : ∃ c ∈ df.pe, c.isSome) (hpb : ∃ c ∈ df.pb, c.isSome)
    (hps : ∃ c ∈ df.ps, c.isSome) (hee : ∃ c ∈ df.evEbitda, c.isSome)
    (heg : ∃ c ∈ df.evGp, c.isSome) :
    ((∀ c ∈ (imputeMissing df).pe, c.isSome) ∧
     (∀ c ∈ (imputeMissing df).pb, c.isSome) ∧
     (∀ c ∈ (imputeMissing df).ps, c.isSome) ∧
     (∀ c ∈ (imputeMissing df).evEbitda, c.isSome) ∧
     (∀ c ∈ (imputeMissing df).evGp, c.isSome)) ∧
    imputeMissing (imputeMissing df) = imputeMissing df := by
  refine ⟨⟨?_, ?_, ?_, ?_, ?_⟩, ?_⟩
  · exact fillna_all_isSome df.pe hpe
  · exact fillna_all_isSome df.pb hpb
  · exact fillna_all_isSome df.ps hps
  · exact fillna_all_isSome df.evEbitda hee
  · exact fillna_all_isSome df.evGp heg
  · simp [imputeMissing, fillna_idem]

/-- C5, witness: on a concrete two-row frame with gaps, a second imputation
pass changes nothing. -/
theorem imputation_idempotent_witness :
    imputeMissing (imputeMissing sampleFrame) = imputeMissing sampleFrame :=
  (imputation_idempotent sampleFrame (by decide) (by decide) (by decide)
    (by decide) (by decide)).2

/-- C7, counterexample: the sort relation induced by `sort_values` with its
default (unstable) `kind='quicksort'` admits, for a universe of two rows
with exactly equal RV scores, an output in reversed input order — stability
of ties is not guaranteed by the code. -/
theorem selector_not_stable_counterexample :
    IsSelectorResult 50 [rowA, rowB] [rowB, rowA] ∧
    [rowB, rowA] ≠ [rowA, rowB] := by
  constructor
  · refine ⟨[rowB, rowA], ⟨List.Perm.swap rowB rowA [], ?_⟩, rfl⟩
    simp [sortedByScore, rowA, rowB]
  · simp [rowA, rowB]

/-- C7, amended: every selector output is a sub-permutation of the input
universe, has length `min 50 universeSize`, is sorted ascending by RV
score, and is the 50-prefix of a fully score-sorted permutation of the
universe; tie order is not constrained. -/
theorem selector_sorted_prefix_properties (inp outp : List Row)
    (h : IsSelectorResult 50 inp outp) :
    outp.Subperm inp ∧
    outp.length = min 50 inp.length ∧
    sortedByScore outp ∧
    ∃ s, IsSortValuesResult inp s ∧ outp = s.take 50 := by
  obtain ⟨s, ⟨hperm, hsort⟩, houtp⟩ := h
  subst houtp
  refine ⟨?_, ?_, ?_, ⟨s, ⟨hperm, hsort⟩, rfl⟩⟩
  · exact ((List.take_sublist 50 s).subperm).trans hperm.symm.subperm
  · rw [List.length_take, hperm.length_eq]
  · exact List.Pairwise.sublist (List.take_sublist 50 s) hsort

/-- C7, witness: the two-row equal-score universe instantiates the amended
selector properties. -/
theorem selector_sorted_prefix_properties_witness :
    [rowB, rowA].Subperm [rowA, rowB] ∧
    [rowB, rowA].length = min 50 [rowA, rowB].length :=
  ⟨(selector_sorted_prefix_properties [rowA, rowB] [rowB, rowA]
      ⟨[rowB, rowA], ⟨List.Perm.swap rowB rowA [],
        by simp [sortedByScore, rowA, rowB]⟩, rfl⟩).1,
   (selector_sorted_prefix_properties [rowA, rowB] [rowB, rowA]
      ⟨[rowB, rowA], ⟨List.Perm.swap rowB rowA [],
        by simp [sortedByScore, rowA, rowB]⟩, rfl⟩).2.1⟩

/-- C10: imputation touches only the undefined cells of the five metric
columns — every already-defined metric cell keeps its value, and the
Ticker, Price, shares-placeholder, percentile and RV-score columns are
unchanged. -/
theorem imputation_frame_effect (df : RVFrame) :
    (imputeMissing df).ticker = df.ticker ∧
    (imputeMissing df).price = df.price ∧
    (imputeMissing df).numberOfShares = df.numberOfShares ∧
    (imputeMissing df).peP = df.peP ∧
    (imputeMissing df).pbP = df.pbP ∧
    (imputeMissing df).psP = df.psP ∧
    (imputeMissing df).evEbitdaP = df.evEbitdaP ∧
    (imputeMissing df).evGpP = df.evGpP ∧
    (imputeMissing df).rvScoreCol = df.rvScoreCol ∧
    (∀ (i : ℕ) (v : ℚ), df.pe[i]? = some (some v) →
      (imputeMissing df).pe[i]? = some (some v)) ∧
    (∀ (i : ℕ) (v : ℚ), df.pb[i]? = some (some v) →
      (imputeMissing df).pb[i]? = some (some v)) ∧
    (∀ (i : ℕ) (v : ℚ), df.ps[i]? = some (some v) →
      (imputeMissing df).ps[i]? = some (some v)) ∧
    (∀ (i : ℕ) (v : ℚ), df.evEbitda[i]? = some (some v) →
      (imputeMissing df).evEbitda[i]? = some (some v)) ∧
    (∀ (i : ℕ) (v : ℚ), df.evGp[i]? = some (some v) →
      (imputeMissing df).evGp[i]? = some (some v)) := by
  refine ⟨rfl, rfl, rfl, rfl, rfl, rfl, rfl, rfl, rfl, ?_, ?_, ?_, ?_, ?_⟩
  all_goals
    intro i v h
    exact fillna_preserves_defined _ i v h

/-- C10, witness: on a concrete one-row frame, imputation keeps the ticker
column and the already-defined P/E cell byte-for-byte. -/
theorem imputation_frame_effect_witness :
    (imputeMissing frameEffectSample).ticker = frameEffectSample.ticker ∧
    (imputeMissing frameEffectSample).pe[0]? = some (some 5) :=
  ⟨(imputation_frame_effect frameEffectSample).1,
   (imputation_frame_effect frameEffectSample).2.2.2.2.2.2.2.2.2.1 0 5 rfl⟩

end QVIS
